import Mathlib

/-!
# Verification of the Splat-app georeferencing core

Shallow embedding of the georeferencing engine of the repository
(scripts/georef_splats.py, scripts/create_georef_from_gps.py,
scripts/fix_tileset_georeference.py, scripts/update_tileset_scale.py)
over the real numbers, together with theorems settling the frozen claims
about it.

Conventions:
* Python floats are modelled as real numbers; float arithmetic is exact
  real arithmetic.
* numpy arrays of shape (N,3) are `Matrix (Fin n) (Fin 3) ℝ`; a 3-vector
  is `Fin 3 → ℝ`; the 16-float column-major placement arrays are
  `Fin 16 → ℝ`.
* numpy's SVD is an external oracle: the estimator takes the decomposition
  data as an argument, and theorems hypothesise exactly the contract that
  numpy.linalg.svd guarantees (orthogonal factors, nonnegative singular
  values, reconstruction).
-/

open Matrix Real

noncomputable section

abbrev Mat3 := Matrix (Fin 3) (Fin 3) ℝ
abbrev Vec3 := Fin 3 → ℝ

/-! ## GeodeticConverter (create_georef_from_gps.geodetic_to_ecef) -/

/-- WGS84 semi-major axis, from the source. -/
def wgs84_a : ℝ := 6378137.0

/-- WGS84 flattening, from the source. -/
def wgs84_f : ℝ := 1 / 298.257223563

/-- First eccentricity squared, from the source. -/
def wgs84_e2 : ℝ := 2 * wgs84_f - wgs84_f * wgs84_f

/-- Degrees to radians, as math.radians / np.deg2rad. -/
def radians (deg : ℝ) : ℝ := deg * Real.pi / 180

/-- Embedding of geodetic_to_ecef from create_georef_from_gps.py
(identical formula in fix_tileset_georeference.py). -/
def geodetic_to_ecef (lat_deg lon_deg h : ℝ) : Vec3 :=
  let lat := radians lat_deg
  let lon := radians lon_deg
  let N := wgs84_a / Real.sqrt (1 - wgs84_e2 * Real.sin lat ^ 2)
  ![(N + h) * Real.cos lat * Real.cos lon,
    (N + h) * Real.cos lat * Real.sin lon,
    (N * (1 - wgs84_e2) + h) * Real.sin lat]

/-! ## FrameBasisBuilder (enu_to_ecef_rotation) -/

/-- Embedding of enu_to_ecef_rotation from create_georef_from_gps.py:
row-major 3x3 with columns east, north, up (identical matrix in
fix_tileset_georeference.py, built there as np.column_stack). -/
def enu_to_ecef_rotation (lat_deg lon_deg : ℝ) : Mat3 :=
  let lat := radians lat_deg
  let lon := radians lon_deg
  Matrix.of
    ![![-Real.sin lon, -Real.sin lat * Real.cos lon, Real.cos lat * Real.cos lon],
      ![Real.cos lon, -Real.sin lat * Real.sin lon, Real.cos lat * Real.sin lon],
      ![0, Real.cos lat, Real.sin lat]]

/-! ## PlacementMatrixBuilder -/

/-- Embedding of create_transform_matrix from create_georef_from_gps.py:
the 16-element flat list it builds, as a function on Fin 16. -/
def create_transform_matrix (lat_deg lon_deg h scale : ℝ) : Fin 16 → ℝ :=
  let t := geodetic_to_ecef lat_deg lon_deg h
  let R := enu_to_ecef_rotation lat_deg lon_deg
  ![R 0 0 * scale, R 1 0 * scale, R 2 0 * scale, 0,
    R 0 1 * scale, R 1 1 * scale, R 2 1 * scale, 0,
    R 0 2 * scale, R 1 2 * scale, R 2 2 * scale, 0,
    t 0, t 1, t 2, 1]

/-- Column-major flattening of a 4x4 matrix: columns in order, i.e. entry
4*j+i of the flat array is M[i][j] (this is what transform.T.flatten()
produces on a row-major numpy matrix). -/
def colMajorFlatten (M : Matrix (Fin 4) (Fin 4) ℝ) : Fin 16 → ℝ :=
  ![M 0 0, M 1 0, M 2 0, M 3 0,
    M 0 1, M 1 1, M 2 1, M 3 1,
    M 0 2, M 1 2, M 2 2, M 3 2,
    M 0 3, M 1 3, M 2 3, M 3 3]

/-- The block matrix [[scale*R, t],[0,1]] described by the spec. -/
def specBlockMatrix (scale : ℝ) (R : Mat3) (t : Vec3) : Matrix (Fin 4) (Fin 4) ℝ :=
  Matrix.of
    ![![scale * R 0 0, scale * R 0 1, scale * R 0 2, t 0],
      ![scale * R 1 0, scale * R 1 1, scale * R 1 2, t 1],
      ![scale * R 2 0, scale * R 2 1, scale * R 2 2, t 2],
      ![0, 0, 0, 1]]

/-- Embedding of create_transform_matrix from fix_tileset_georeference.py:
np.eye(4) with the upper-left 3x3 block overwritten by R*scale and the
first three entries of the last column by t, returned as
transform.T.flatten(). -/
def create_transform_matrix_fix (lat_deg lon_deg h scale : ℝ) : Fin 16 → ℝ :=
  let t := geodetic_to_ecef lat_deg lon_deg h
  let R := enu_to_ecef_rotation lat_deg lon_deg
  colMajorFlatten (Matrix.of
    ![![R 0 0 * scale, R 0 1 * scale, R 0 2 * scale, t 0],
      ![R 1 0 * scale, R 1 1 * scale, R 1 2 * scale, t 1],
      ![R 2 0 * scale, R 2 1 * scale, R 2 2 * scale, t 2],
      ![0, 0, 0, 1]])

/-- np.linalg.norm(M[:3,0]) in update_tileset_scale.py: the Euclidean norm
of the first basis column, i.e. of flat entries 0, 1, 2. -/
def firstColNorm (flat : Fin 16 → ℝ) : ℝ :=
  Real.sqrt (flat 0 ^ 2 + flat 1 ^ 2 + flat 2 ^ 2)

/-- Embedding of update_tileset_scale from update_tileset_scale.py, acting
on the column-major flat transform array: current_scale is the norm of
M[:3,0] (flat entries 0,1,2), the nine upper-left block entries (flat
entries 4*j+i for i,j < 3) are multiplied by new_scale / current_scale,
everything else is copied. -/
def update_tileset_scale (flat : Fin 16 → ℝ) (new_scale : ℝ) : Fin 16 → ℝ :=
  let f := new_scale / firstColNorm flat
  ![f * flat 0, f * flat 1, f * flat 2, flat 3,
    f * flat 4, f * flat 5, f * flat 6, flat 7,
    f * flat 8, f * flat 9, f * flat 10, flat 11,
    flat 12, flat 13, flat 14, flat 15]

/-- The matrix view np.array(flat).reshape(4, 4).T used by
update_tileset_scale.py: entry (i, j) is flat entry 4*j+i. -/
def reshapeT (flat : Fin 16 → ℝ) : Matrix (Fin 4) (Fin 4) ℝ :=
  Matrix.of
    ![![flat 0, flat 4, flat 8, flat 12],
      ![flat 1, flat 5, flat 9, flat 13],
      ![flat 2, flat 6, flat 10, flat 14],
      ![flat 3, flat 7, flat 11, flat 15]]

/-- C9: build returns the column-major flattening of [[scale*R, t],[0,1]],
with bottom-row flat entries 3, 7, 11 equal to 0 and entry 15 equal to 1;
the two source implementations agree. -/
theorem create_transform_matrix_is_colmajor_block
    (lat_deg lon_deg h scale : ℝ) :
    create_transform_matrix lat_deg lon_deg h scale =
      colMajorFlatten (specBlockMatrix scale
        (enu_to_ecef_rotation lat_deg lon_deg)
        (geodetic_to_ecef lat_deg lon_deg h)) ∧
    create_transform_matrix_fix lat_deg lon_deg h scale =
      create_transform_matrix lat_deg lon_deg h scale ∧
    create_transform_matrix lat_deg lon_deg h scale 3 = 0 ∧
    create_transform_matrix lat_deg lon_deg h scale 7 = 0 ∧
    create_transform_matrix lat_deg lon_deg h scale 11 = 0 ∧
    create_transform_matrix lat_deg lon_deg h scale 15 = 1 := by
  refine ⟨?_, ?_, ?_, ?_, ?_, ?_⟩
  · funext k
    fin_cases k <;>
      norm_num [create_transform_matrix, colMajorFlatten, specBlockMatrix] <;>
      ring
  · funext k
    fin_cases k <;>
      norm_num [create_transform_matrix, create_transform_matrix_fix,
        colMajorFlatten]
  · show create_transform_matrix lat_deg lon_deg h scale ⟨3, by omega⟩ = 0
    norm_num [create_transform_matrix]
  · show create_transform_matrix lat_deg lon_deg h scale ⟨7, by omega⟩ = 0
    norm_num [create_transform_matrix]
  · show create_transform_matrix lat_deg lon_deg h scale ⟨11, by omega⟩ = 0
    norm_num [create_transform_matrix]
  · show create_transform_matrix lat_deg lon_deg h scale ⟨15, by omega⟩ = 1
    norm_num [create_transform_matrix]

lemma upd_apply_0 (flat : Fin 16 → ℝ) (ns : ℝ) :
    update_tileset_scale flat ns 0 = ns / firstColNorm flat * flat 0 := rfl

lemma upd_apply_1 (flat : Fin 16 → ℝ) (ns : ℝ) :
    update_tileset_scale flat ns 1 = ns / firstColNorm flat * flat 1 := rfl

lemma upd_apply_2 (flat : Fin 16 → ℝ) (ns : ℝ) :
    update_tileset_scale flat ns 2 = ns / firstColNorm flat * flat 2 := rfl

lemma upd_apply_3 (flat : Fin 16 → ℝ) (ns : ℝ) :
    update_tileset_scale flat ns 3 = flat 3 := rfl

lemma upd_apply_4 (flat : Fin 16 → ℝ) (ns : ℝ) :
    update_tileset_scale flat ns 4 = ns / firstColNorm flat * flat 4 := rfl

lemma upd_apply_5 (flat : Fin 16 → ℝ) (ns : ℝ) :
    update_tileset_scale flat ns 5 = ns / firstColNorm flat * flat 5 := rfl

lemma upd_apply_6 (flat : Fin 16 → ℝ) (ns : ℝ) :
    update_tileset_scale flat ns 6 = ns / firstColNorm flat * flat 6 := rfl

lemma upd_apply_7 (flat : Fin 16 → ℝ) (ns : ℝ) :
    update_tileset_scale flat ns 7 = flat 7 := rfl

lemma upd_apply_8 (flat : Fin 16 → ℝ) (ns : ℝ) :
    update_tileset_scale flat ns 8 = ns / firstColNorm flat * flat 8 := rfl

lemma upd_apply_9 (flat : Fin 16 → ℝ) (ns : ℝ) :
    update_tileset_scale flat ns 9 = ns / firstColNorm flat * flat 9 := rfl

lemma upd_apply_10 (flat : Fin 16 → ℝ) (ns : ℝ) :
    update_tileset_scale flat ns 10 = ns / firstColNorm flat * flat 10 := rfl

lemma upd_apply_11 (flat : Fin 16 → ℝ) (ns : ℝ) :
    update_tileset_scale flat ns 11 = flat 11 := rfl

lemma upd_apply_12 (flat : Fin 16 → ℝ) (ns : ℝ) :
    update_tileset_scale flat ns 12 = flat 12 := rfl

lemma upd_apply_13 (flat : Fin 16 → ℝ) (ns : ℝ) :
    update_tileset_scale flat ns 13 = flat 13 := rfl

lemma upd_apply_14 (flat : Fin 16 → ℝ) (ns : ℝ) :
    update_tileset_scale flat ns 14 = flat 14 := rfl

lemma upd_apply_15 (flat : Fin 16 → ℝ) (ns : ℝ) :
    update_tileset_scale flat ns 15 = flat 15 := rfl

/-- Rescaling sets the first-column norm to the absolute value of the new
scale, provided the input matrix is not degenerate. -/
lemma firstColNorm_update (flat : Fin 16 → ℝ) (ns : ℝ)
    (h : 0 < firstColNorm flat) :
    firstColNorm (update_tileset_scale flat ns) = |ns| := by
  have hne : firstColNorm flat ≠ 0 := ne_of_gt h
  unfold firstColNorm
  rw [upd_apply_0, upd_apply_1, upd_apply_2]
  have key : (ns / firstColNorm flat * flat 0) ^ 2 +
      (ns / firstColNorm flat * flat 1) ^ 2 +
      (ns / firstColNorm flat * flat 2) ^ 2 =
      (ns / firstColNorm flat) ^ 2 *
        (flat 0 ^ 2 + flat 1 ^ 2 + flat 2 ^ 2) := by ring
  rw [key, Real.sqrt_mul (sq_nonneg _), Real.sqrt_sq_eq_abs, abs_div]
  have hsq : Real.sqrt (flat 0 ^ 2 + flat 1 ^ 2 + flat 2 ^ 2) =
      firstColNorm flat := rfl
  rw [hsq, abs_of_pos h, div_mul_cancel₀ _ hne]

/-- The first-column norm of a built placement matrix is its scale. -/
lemma firstColNorm_create (lat_deg lon_deg h s0 : ℝ) (hs0 : 0 ≤ s0) :
    firstColNorm (create_transform_matrix lat_deg lon_deg h s0) = s0 := by
  have e0 : create_transform_matrix lat_deg lon_deg h s0 0 =
      -Real.sin (radians lon_deg) * s0 := by
    norm_num [create_transform_matrix, enu_to_ecef_rotation]
  have e1 : create_transform_matrix lat_deg lon_deg h s0 1 =
      Real.cos (radians lon_deg) * s0 := by
    norm_num [create_transform_matrix, enu_to_ecef_rotation]
  have e2 : create_transform_matrix lat_deg lon_deg h s0 2 = 0 * s0 := by
    norm_num [create_transform_matrix, enu_to_ecef_rotation]
  unfold firstColNorm
  rw [e0, e1, e2]
  have key : (-Real.sin (radians lon_deg) * s0) ^ 2 +
      (Real.cos (radians lon_deg) * s0) ^ 2 + (0 * s0) ^ 2 = s0 ^ 2 := by
    have pyth := Real.sin_sq_add_cos_sq (radians lon_deg)
    nlinarith [pyth]
  rw [key, Real.sqrt_sq hs0]

/-- C8: rescaling multiplies exactly the upper-left 3x3 block of the
column-major placement matrix by newScale over the norm of the first
basis column and copies the translation column and bottom row; rescaling
a built matrix to its own scale is a no-op, and rescaling away and back
restores the original matrix. -/
theorem update_tileset_scale_spec :
    (∀ (flat : Fin 16 → ℝ) (ns : ℝ) (i j : Fin 4),
      (((i : ℕ) < 3 ∧ (j : ℕ) < 3) →
        reshapeT (update_tileset_scale flat ns) i j =
          ns / firstColNorm flat * reshapeT flat i j) ∧
      (((i : ℕ) = 3 ∨ (j : ℕ) = 3) →
        reshapeT (update_tileset_scale flat ns) i j = reshapeT flat i j)) ∧
    (∀ lat_deg lon_deg h s0 : ℝ, 0 < s0 →
      update_tileset_scale (create_transform_matrix lat_deg lon_deg h s0) s0 =
        create_transform_matrix lat_deg lon_deg h s0) ∧
    (∀ (flat : Fin 16 → ℝ) (s0 s1 : ℝ), firstColNorm flat = s0 → 0 < s0 →
      0 < s1 →
      update_tileset_scale (update_tileset_scale flat s1) s0 = flat) := by
  refine ⟨?_, ?_, ?_⟩
  · intro flat ns i j
    constructor
    · rintro ⟨hi, hj⟩
      fin_cases i <;> fin_cases j <;>
        norm_num [reshapeT, upd_apply_0, upd_apply_1, upd_apply_2,
          upd_apply_4, upd_apply_5, upd_apply_6, upd_apply_8, upd_apply_9,
          upd_apply_10] at hi hj ⊢
    · intro hij
      fin_cases i <;> fin_cases j <;>
        norm_num [reshapeT, upd_apply_3, upd_apply_7, upd_apply_11,
          upd_apply_12, upd_apply_13, upd_apply_14, upd_apply_15] at hij ⊢
  · intro lat_deg lon_deg h s0 hs0
    have hc := firstColNorm_create lat_deg lon_deg h s0 hs0.le
    have hone : s0 / s0 = 1 := div_self hs0.ne'
    funext k
    fin_cases k
    · exact (upd_apply_0 _ s0).trans (by rw [hc, hone, one_mul]; exact rfl)
    · exact (upd_apply_1 _ s0).trans (by rw [hc, hone, one_mul]; exact rfl)
    · exact (upd_apply_2 _ s0).trans (by rw [hc, hone, one_mul]; exact rfl)
    · exact upd_apply_3 _ s0
    · exact (upd_apply_4 _ s0).trans (by rw [hc, hone, one_mul]; exact rfl)
    · exact (upd_apply_5 _ s0).trans (by rw [hc, hone, one_mul]; exact rfl)
    · exact (upd_apply_6 _ s0).trans (by rw [hc, hone, one_mul]; exact rfl)
    · exact upd_apply_7 _ s0
    · exact (upd_apply_8 _ s0).trans (by rw [hc, hone, one_mul]; exact rfl)
    · exact (upd_apply_9 _ s0).trans (by rw [hc, hone, one_mul]; exact rfl)
    · exact (upd_apply_10 _ s0).trans (by rw [hc, hone, one_mul]; exact rfl)
    · exact upd_apply_11 _ s0
    · exact upd_apply_12 _ s0
    · exact upd_apply_13 _ s0
    · exact upd_apply_14 _ s0
    · exact upd_apply_15 _ s0
  · intro flat s0 s1 hc hs0 hs1
    have h1 : 0 < firstColNorm flat := hc ▸ hs0
    have hinner : firstColNorm (update_tileset_scale flat s1) = s1 := by
      rw [firstColNorm_update flat s1 h1, abs_of_pos hs1]
    have key : ∀ x : ℝ, s0 / s1 * (s1 / s0 * x) = x := by
      intro x
      field_simp
      ring
    funext k
    fin_cases k
    · exact (upd_apply_0 _ s0).trans
        (by rw [hinner, upd_apply_0 flat s1, hc]; exact key _)
    · exact (upd_apply_1 _ s0).trans
        (by rw [hinner, upd_apply_1 flat s1, hc]; exact key _)
    · exact (upd_apply_2 _ s0).trans
        (by rw [hinner, upd_apply_2 flat s1, hc]; exact key _)
    · exact (upd_apply_3 _ s0).trans (upd_apply_3 flat s1)
    · exact (upd_apply_4 _ s0).trans
        (by rw [hinner, upd_apply_4 flat s1, hc]; exact key _)
    · exact (upd_apply_5 _ s0).trans
        (by rw [hinner, upd_apply_5 flat s1, hc]; exact key _)
    · exact (upd_apply_6 _ s0).trans
        (by rw [hinner, upd_apply_6 flat s1, hc]; exact key _)
    · exact (upd_apply_7 _ s0).trans (upd_apply_7 flat s1)
    · exact (upd_apply_8 _ s0).trans
        (by rw [hinner, upd_apply_8 flat s1, hc]; exact key _)
    · exact (upd_apply_9 _ s0).trans
        (by rw [hinner, upd_apply_9 flat s1, hc]; exact key _)
    · exact (upd_apply_10 _ s0).trans
        (by rw [hinner, upd_apply_10 flat s1, hc]; exact key _)
    · exact (upd_apply_11 _ s0).trans (upd_apply_11 flat s1)
    · exact (upd_apply_12 _ s0).trans (upd_apply_12 flat s1)
    · exact (upd_apply_13 _ s0).trans (upd_apply_13 flat s1)
    · exact (upd_apply_14 _ s0).trans (upd_apply_14 flat s1)
    · exact (upd_apply_15 _ s0).trans (upd_apply_15 flat s1)

/-- C8 counterexample: read with M, s0, s1 unconstrained the round-trip
clause is false: for the built matrix of scale 2, rescaling to 1 and then
to 5 does not return the original matrix (its current scale must equal
the final target s0, and here 2 is not 5). -/
theorem update_tileset_scale_roundtrip_counterexample :
    update_tileset_scale
        (update_tileset_scale (create_transform_matrix 0 0 0 2) 1) 5 ≠
      create_transform_matrix 0 0 0 2 := by
  have hM1 : create_transform_matrix 0 0 0 2 1 = 2 := by
    norm_num [create_transform_matrix, enu_to_ecef_rotation, radians]
  have hcol : firstColNorm (create_transform_matrix 0 0 0 2) = 2 :=
    firstColNorm_create 0 0 0 2 (by norm_num)
  have hinner1 :
      update_tileset_scale (create_transform_matrix 0 0 0 2) 1 1 = 1 := by
    rw [upd_apply_1, hcol, hM1]
    norm_num
  have hinnercol : firstColNorm
      (update_tileset_scale (create_transform_matrix 0 0 0 2) 1) = 1 := by
    rw [firstColNorm_update _ 1 (by rw [hcol]; norm_num)]
    norm_num
  intro hcontra
  have h := congrFun hcontra 1
  rw [upd_apply_1, hinnercol, hinner1, hM1] at h
  norm_num at h

/-! ## SimilarityTransformEstimator (georef_splats.py) -/

/-- P.mean(axis=0): the centroid of an (N,3) point array. -/
def centroid {n : ℕ} (P : Matrix (Fin n) (Fin 3) ℝ) : Vec3 :=
  fun j => (∑ i, P i j) / n

/-- P - P.mean(axis=0): rows recentred at the centroid. -/
def centered {n : ℕ} (P : Matrix (Fin n) (Fin 3) ℝ) :
    Matrix (Fin n) (Fin 3) ℝ :=
  Matrix.of fun i j => P i j - centroid P j

/-- H = Pc.T @ Qc: the 3x3 cross-covariance of the centred sets. -/
def crossCov {n : ℕ} (P Q : Matrix (Fin n) (Fin 3) ℝ) : Mat3 :=
  (centered P)ᵀ * centered Q

/-- (Pc ** 2).sum(): the variance of the centred local set. -/
def varOf {n : ℕ} (P : Matrix (Fin n) (Fin 3) ℝ) : ℝ :=
  ∑ i, ∑ j, centered P i j ^ 2

/-- The data numpy.linalg.svd returns for the 3x3 matrix H: factors U, Vt
and the vector of singular values. -/
structure SVDData where
  U : Mat3
  S : Vec3
  Vt : Mat3

/-- The contract numpy.linalg.svd guarantees for its output on input H:
U and Vt orthogonal, singular values nonnegative, H = U @ diag(S) @ Vt. -/
def IsSVDOf (H : Mat3) (d : SVDData) : Prop :=
  d.U * d.Uᵀ = 1 ∧ d.Vt * d.Vtᵀ = 1 ∧ (∀ i, 0 ≤ d.S i) ∧
    H = d.U * Matrix.diagonal d.S * d.Vt

/-- Vt[-1, :] *= -1: negate the last row. -/
def flipLastRow (M : Mat3) : Mat3 :=
  Matrix.of fun i j => if i = 2 then -M i j else M i j

/-- R = Vt.T @ U.T, the candidate rotation before reflection correction. -/
def svdRotationRaw (d : SVDData) : Mat3 := d.Vtᵀ * d.Uᵀ

open Classical in
/-- The rotation produced by estimate_similarity_transform: Vt.T @ U.T,
with the last row of Vt negated first when det(R) < 0. -/
def svdRotation (d : SVDData) : Mat3 :=
  if (svdRotationRaw d).det < 0 then (flipLastRow d.Vt)ᵀ * d.Uᵀ
  else svdRotationRaw d

/-- The numeric body of estimate_similarity_transform on two well-shaped
(N,3) arrays, given the SVD data for H:
s = Svals.sum() / varP, R = svdRotation, t = Q.mean - s * (R @ P.mean). -/
def estimateCore {n : ℕ} (P Q : Matrix (Fin n) (Fin 3) ℝ) (d : SVDData) :
    ℝ × Mat3 × Vec3 :=
  let R := svdRotation d
  let s := (∑ i, d.S i) / varOf P
  (s, R, fun j => centroid Q j - s * R.mulVec (centroid P) j)

/-- A numpy float array of arbitrary 2-D shape. -/
structure NArray where
  rows : ℕ
  cols : ℕ
  entry : Matrix (Fin rows) (Fin cols) ℝ

/-- View an NArray at statically known dimensions. -/
def NArray.mat (A : NArray) (m k : ℕ) (hr : A.rows = m) (hc : A.cols = k) :
    Matrix (Fin m) (Fin k) ℝ :=
  Matrix.of fun i j => A.entry (Fin.cast hr.symm i) (Fin.cast hc.symm j)

lemma NArray.mat_rfl (rows cols : ℕ) (M : Matrix (Fin rows) (Fin cols) ℝ) :
    (NArray.mk rows cols M).mat rows cols rfl rfl = M := rfl

/-- Embedding of estimate_similarity_transform from georef_splats.py: the
only check is P.shape == Q.shape and P.shape[1] == 3; past it the numeric
body always produces a triple. -/
def estimate_similarity_transform (P Q : NArray) (d : SVDData) :
    Except String (ℝ × Mat3 × Vec3) :=
  if h : P.rows = Q.rows ∧ P.cols = Q.cols ∧ P.cols = 3 then
    .ok (estimateCore (P.mat P.rows 3 rfl h.2.2)
      (Q.mat P.rows 3 h.1.symm (h.2.1 ▸ h.2.2)) d)
  else .error "P and Q must both be (N, 3) arrays"

/-- Embedding of load_transform_from_correspondences from
georef_splats.py: rejects fewer than 3 pairs, then defers to the
estimator. -/
def load_transform_from_correspondences (P Q : NArray) (d : SVDData) :
    Except String (ℝ × Mat3 × Vec3) :=
  if P.rows < 3 then .error "Need at least 3 point correspondences"
  else estimate_similarity_transform P Q d

/-- Embedding of load_transform_from_json from georef_splats.py: the scale
is converted and returned verbatim with no validation; only the shapes of
R (3x3) and t (length 3) are checked. -/
def load_transform_from_json (scale : ℝ) (R : List (List ℝ))
    (t : List ℝ) : Except String (ℝ × Mat3 × Vec3) :=
  if R.length = 3 ∧ ∀ row ∈ R, row.length = 3 then
    if t.length = 3 then
      .ok (scale, Matrix.of fun i j => (R.getD i (([] : List ℝ))).getD j 0,
        fun i => t.getD i 0)
    else .error "t in transform.json must be length-3"
  else .error "R in transform.json must be a 3x3 matrix"

/-- C4 counterexample: a transform descriptor with valid shapes but a
negative scale loads successfully and is returned verbatim; the claimed
rejection of non-positive scale does not happen. -/
theorem load_transform_accepts_nonpositive_scale :
    ∃ out, load_transform_from_json (-1)
      [[1, 0, 0], [0, 1, 0], [0, 0, 1]] [0, 0, 0] = .ok out ∧
      out.1 = -1 :=
  ⟨_, rfl, rfl⟩

/-- C4 amended: explicit load succeeds if and only if R is exactly 3x3 and
t is exactly length 3; the scale is passed through verbatim with no
positivity or finiteness check, and the matrix is returned entrywise as
given (never re-orthonormalized). -/
theorem load_transform_shape_validation (scale : ℝ) (R : List (List ℝ))
    (t : List ℝ) :
    ((∃ out, load_transform_from_json scale R t = .ok out) ↔
      (R.length = 3 ∧ (∀ row ∈ R, row.length = 3) ∧ t.length = 3)) ∧
    (∀ out, load_transform_from_json scale R t = .ok out →
      out = (scale,
        (Matrix.of fun i j => (R.getD i (([] : List ℝ))).getD j 0 : Mat3),
        (fun i => t.getD i 0 : Vec3))) := by
  unfold load_transform_from_json
  by_cases h1 : R.length = 3 ∧ ∀ row ∈ R, row.length = 3
  · rw [if_pos h1]
    by_cases h2 : t.length = 3
    · rw [if_pos h2]
      refine ⟨⟨fun _ => ⟨h1.1, h1.2, h2⟩, fun _ => ⟨_, rfl⟩⟩, ?_⟩
      intro out hout
      injection hout with hv
      exact hv.symm
    · rw [if_neg h2]
      refine ⟨⟨?_, ?_⟩, ?_⟩
      · rintro ⟨out, hout⟩
        simp at hout
      · rintro ⟨_, _, h3⟩
        exact absurd h3 h2
      · intro out hout
        simp at hout
  · rw [if_neg h1]
    refine ⟨⟨?_, ?_⟩, ?_⟩
    · rintro ⟨out, hout⟩
      simp at hout
    · rintro ⟨ha, hb, _⟩
      exact absurd ⟨ha, hb⟩ h1
    · intro out hout
      simp at hout

/-- C4 witness: a well-shaped descriptor loads successfully. -/
theorem load_transform_shape_validation_witness :
    ∃ out, load_transform_from_json 2
      [[1, 2, 3], [4, 5, 6], [7, 8, 9]] [1, 2, 3] = .ok out :=
  (load_transform_shape_validation 2 [[1, 2, 3], [4, 5, 6], [7, 8, 9]]
    [1, 2, 3]).1.mpr (by norm_num)

/-- C10: the estimator itself errors exactly when the two arrays do not
share a common (N,3) shape — it has no minimum-count requirement — while
the correspondence-loading wrapper additionally rejects fewer than 3
pairs and otherwise defers to the estimator. -/
theorem estimate_shape_check (P Q : NArray) (d : SVDData) :
    ((∃ out, estimate_similarity_transform P Q d = .ok out) ↔
      (P.rows = Q.rows ∧ P.cols = Q.cols ∧ P.cols = 3)) ∧
    ((∃ e, estimate_similarity_transform P Q d = .error e) ↔
      ¬(P.rows = Q.rows ∧ P.cols = Q.cols ∧ P.cols = 3)) ∧
    (P.rows < 3 → ∃ e, load_transform_from_correspondences P Q d = .error e) ∧
    (3 ≤ P.rows → load_transform_from_correspondences P Q d =
      estimate_similarity_transform P Q d) := by
  unfold load_transform_from_correspondences estimate_similarity_transform
  by_cases h : P.rows = Q.rows ∧ P.cols = Q.cols ∧ P.cols = 3
  · rw [dif_pos h]
    refine ⟨⟨fun _ => h, fun _ => ⟨_, rfl⟩⟩, ⟨?_, fun hn => absurd h hn⟩,
      ?_, ?_⟩
    · rintro ⟨e, he⟩
      simp at he
    · intro hlt
      rw [if_pos hlt]
      exact ⟨_, rfl⟩
    · intro hge
      rw [if_neg (by omega)]
  · rw [dif_neg h]
    refine ⟨⟨?_, fun hh => absurd hh h⟩, ⟨fun _ => h, fun _ => ⟨_, rfl⟩⟩,
      ?_, ?_⟩
    · rintro ⟨out, hout⟩
      simp at hout
    · intro hlt
      rw [if_pos hlt]
      exact ⟨_, rfl⟩
    · intro hge
      rw [if_neg (by omega)]

/-- A 2-point correspondence array (shape (2,3)). -/
def twoPointArray : NArray :=
  ⟨2, 3, Matrix.of ![![0, 0, 0], ![1, 0, 0]]⟩

/-- Placeholder SVD data built from identity factors and zero singular
values; it is valid SVD data for the zero matrix. -/
def degSVD : SVDData := ⟨1, ![0, 0, 0], 1⟩

/-- C10 witness: with 2 pairs the estimator proceeds while the wrapper
rejects. -/
theorem estimate_shape_check_witness :
    (∃ out, estimate_similarity_transform twoPointArray twoPointArray
      degSVD = .ok out) ∧
    (∃ e, load_transform_from_correspondences twoPointArray twoPointArray
      degSVD = .error e) :=
  ⟨(estimate_shape_check twoPointArray twoPointArray degSVD).1.mpr
      ⟨rfl, rfl, rfl⟩,
    (estimate_shape_check twoPointArray twoPointArray degSVD).2.2.1
      (by norm_num [twoPointArray])⟩

/-! ## Permutation invariance of the estimator -/

/-- Apply a permutation to the rows of a point array. -/
def permRows {n : ℕ} (σ : Equiv.Perm (Fin n))
    (P : Matrix (Fin n) (Fin 3) ℝ) : Matrix (Fin n) (Fin 3) ℝ :=
  Matrix.of fun i j => P (σ i) j

lemma centroid_perm {n : ℕ} (σ : Equiv.Perm (Fin n))
    (P : Matrix (Fin n) (Fin 3) ℝ) :
    centroid (permRows σ P) = centroid P := by
  funext j
  unfold centroid permRows
  simp only [Matrix.of_apply]
  rw [Equiv.sum_comp σ fun i => P i j]

lemma centered_perm {n : ℕ} (σ : Equiv.Perm (Fin n))
    (P : Matrix (Fin n) (Fin 3) ℝ) :
    centered (permRows σ P) = permRows σ (centered P) := by
  funext i j
  show permRows σ P i j - centroid (permRows σ P) j = centered P (σ i) j
  rw [centroid_perm]
  rfl

lemma varOf_perm {n : ℕ} (σ : Equiv.Perm (Fin n))
    (P : Matrix (Fin n) (Fin 3) ℝ) :
    varOf (permRows σ P) = varOf P := by
  unfold varOf
  rw [centered_perm]
  rw [← Equiv.sum_comp σ fun i => ∑ j, centered P i j ^ 2]
  refine Finset.sum_congr rfl fun i _ => ?_
  refine Finset.sum_congr rfl fun j _ => ?_
  simp [permRows]

lemma crossCov_perm {n : ℕ} (σ : Equiv.Perm (Fin n))
    (P Q : Matrix (Fin n) (Fin 3) ℝ) :
    crossCov (permRows σ P) (permRows σ Q) = crossCov P Q := by
  funext a b
  unfold crossCov
  rw [centered_perm, centered_perm]
  simp only [Matrix.mul_apply, Matrix.transpose_apply]
  rw [← Equiv.sum_comp σ fun i => centered P i a * centered Q i b]
  refine Finset.sum_congr rfl fun i _ => ?_
  simp [permRows]

/-- C7: permuting the local and target rows by the same permutation leaves
the cross-covariance handed to the SVD unchanged, and the estimated
(scale, rotation, translation) computed from any given SVD data is
unchanged: the estimate depends only on the multiset of pairs. -/
theorem estimate_permutation_invariant {n : ℕ} (σ : Equiv.Perm (Fin n))
    (P Q : Matrix (Fin n) (Fin 3) ℝ) (d : SVDData) :
    crossCov (permRows σ P) (permRows σ Q) = crossCov P Q ∧
    estimateCore (permRows σ P) (permRows σ Q) d = estimateCore P Q d := by
  refine ⟨crossCov_perm σ P Q, ?_⟩
  unfold estimateCore
  rw [centroid_perm, centroid_perm, varOf_perm]

/-! ## Proper-rotation invariants (C6) -/

lemma orth_mul_transpose {A B : Mat3} (hA : A * Aᵀ = 1) (hB : B * Bᵀ = 1) :
    (Aᵀ * Bᵀ)ᵀ * (Aᵀ * Bᵀ) = 1 := by
  have h1 : (Aᵀ * Bᵀ)ᵀ = B * A := by
    rw [Matrix.transpose_mul, Matrix.transpose_transpose,
      Matrix.transpose_transpose]
  rw [h1, Matrix.mul_assoc, ← Matrix.mul_assoc A, hA, Matrix.one_mul, hB]

lemma det_pm_one {R : Mat3} (h : Rᵀ * R = 1) : R.det = 1 ∨ R.det = -1 := by
  have h2 : R.det * R.det = 1 := by
    have h3 := congrArg Matrix.det h
    rwa [Matrix.det_mul, Matrix.det_transpose, Matrix.det_one,
      mul_comm] at h3
  exact mul_self_eq_one_iff.mp h2

lemma flipLastRow_eq (M : Mat3) :
    flipLastRow M = Matrix.diagonal ![1, 1, -1] * M := by
  funext i j
  rw [Matrix.diagonal_mul]
  fin_cases i <;> simp [flipLastRow]

lemma flip_diag_sq : (Matrix.diagonal ![1, 1, -1] : Mat3) *
    (Matrix.diagonal ![1, 1, -1])ᵀ = 1 := by
  rw [Matrix.diagonal_transpose, Matrix.diagonal_mul_diagonal]
  have h : (fun i => (![1, 1, -1] : Vec3) i * ![1, 1, -1] i) =
      fun _ => (1 : ℝ) := by
    funext i
    fin_cases i <;> norm_num
  rw [h]
  exact Matrix.diagonal_one

lemma flip_det : (Matrix.diagonal ![1, 1, -1] : Mat3).det = -1 := by
  rw [Matrix.det_diagonal, Fin.prod_univ_three]
  norm_num

lemma flipLastRow_orth {M : Mat3} (hM : M * Mᵀ = 1) :
    flipLastRow M * (flipLastRow M)ᵀ = 1 := by
  rw [flipLastRow_eq, Matrix.transpose_mul, Matrix.mul_assoc,
    ← Matrix.mul_assoc M, hM, Matrix.one_mul, flip_diag_sq]

lemma flipLastRow_det (M : Mat3) :
    (flipLastRow M).det = -M.det := by
  rw [flipLastRow_eq, Matrix.det_mul, flip_det]
  ring

/-- The reflection-corrected SVD rotation is always orthogonal with
determinant +1. -/
lemma svdRotation_proper (d : SVDData) (hU : d.U * d.Uᵀ = 1)
    (hVt : d.Vt * d.Vtᵀ = 1) :
    (svdRotation d)ᵀ * svdRotation d = 1 ∧ (svdRotation d).det = 1 := by
  unfold svdRotation
  by_cases hdet : (svdRotationRaw d).det < 0
  · rw [if_pos hdet]
    have horth : ((flipLastRow d.Vt)ᵀ * d.Uᵀ)ᵀ *
        ((flipLastRow d.Vt)ᵀ * d.Uᵀ) = 1 :=
      orth_mul_transpose (flipLastRow_orth hVt) hU
    refine ⟨horth, ?_⟩
    have hdet2 : ((flipLastRow d.Vt)ᵀ * d.Uᵀ).det =
        -(svdRotationRaw d).det := by
      unfold svdRotationRaw
      simp only [Matrix.det_mul, Matrix.det_transpose, flipLastRow_det]
      ring
    rcases det_pm_one horth with h1 | h1
    · exact h1
    · rw [h1] at hdet2
      linarith
  · rw [if_neg hdet]
    have horth : (svdRotationRaw d)ᵀ * svdRotationRaw d = 1 :=
      orth_mul_transpose hVt hU
    refine ⟨horth, ?_⟩
    rcases det_pm_one horth with h1 | h1
    · exact h1
    · rw [h1] at hdet
      norm_num at hdet

/-- C6: both rotations the core produces are proper: the estimator's
reflection-corrected SVD rotation (for any orthogonal U, Vt), and the
ENU-to-ECEF rotation for latitudes strictly between -90 and 90 degrees. -/
theorem core_rotations_proper (d : SVDData) (lat_deg lon_deg : ℝ)
    (hU : d.U * d.Uᵀ = 1) (hVt : d.Vt * d.Vtᵀ = 1)
    (hlat1 : -90 < lat_deg) (hlat2 : lat_deg < 90) :
    ((svdRotation d)ᵀ * svdRotation d = 1 ∧ (svdRotation d).det = 1) ∧
    ((enu_to_ecef_rotation lat_deg lon_deg)ᵀ *
        enu_to_ecef_rotation lat_deg lon_deg = 1 ∧
      (enu_to_ecef_rotation lat_deg lon_deg).det = 1) := by
  refine ⟨svdRotation_proper d hU hVt, ?_, ?_⟩
  · funext a b
    rw [Matrix.mul_apply]
    rw [Fin.sum_univ_three]
    fin_cases a <;> fin_cases b <;>
      norm_num [enu_to_ecef_rotation, Matrix.transpose_apply,
        Matrix.one_apply, Fin.ext_iff] <;>
      first
        | ring1
        | (ring_nf; simp only [Real.cos_sq']; ring1)
        | (ring_nf; simp only [Real.cos_sq']; ring_nf)
  · rw [Matrix.det_fin_three]
    norm_num [enu_to_ecef_rotation]
    first
      | ring1
      | (ring_nf; simp only [Real.cos_sq']; ring1)
      | (ring_nf; simp only [Real.cos_sq']; ring_nf)

/-! ## PointCloudTransformApplier (apply_similarity_to_ply) -/

/-- The scale-like naming convention used by the source: the lowercased
field name begins with "scale" or "radius". -/
def isScaleLike (name : String) : Bool :=
  name.toLower.startsWith "scale" || name.toLower.startsWith "radius"

/-- A point cloud: the ordered field schema of the vertex element, and the
vertex records, each a valuation of field names. -/
structure PointCloud where
  names : List String
  rows : List (String → ℝ)

/-- The per-record effect of apply_similarity_to_ply: positions become
s * (R @ p) + t, scale-like fields are multiplied by s, all other fields
are copied. -/
def transformRow (s : ℝ) (R : Mat3) (t : Vec3) (r : String → ℝ) :
    String → ℝ :=
  fun name =>
    if name = "x" then s * R.mulVec ![r "x", r "y", r "z"] 0 + t 0
    else if name = "y" then s * R.mulVec ![r "x", r "y", r "z"] 1 + t 1
    else if name = "z" then s * R.mulVec ![r "x", r "y", r "z"] 2 + t 2
    else if isScaleLike name then s * r name
    else r name

/-- The value-level semantics of apply_similarity_to_ply from
georef_splats.py: require the position fields, then rewrite every record,
keeping the schema and record count. -/
def apply_similarity_to_ply (cloud : PointCloud) (s : ℝ) (R : Mat3)
    (t : Vec3) : Except String PointCloud :=
  if "x" ∈ cloud.names ∧ "y" ∈ cloud.names ∧ "z" ∈ cloud.names then
    .ok ⟨cloud.names, cloud.rows.map (transformRow s R t)⟩
  else .error "PLY vertex must have x, y, z fields"

/-- The file-level behaviour of apply_similarity_to_ply: read the cloud at
the input path, transform it, and write the result at the output path,
leaving every other path of the store alone. -/
def run_apply_similarity (store : String → Option PointCloud)
    (input output : String) (s : ℝ) (R : Mat3) (t : Vec3) :
    Except String (String → Option PointCloud) :=
  match store input with
  | none => .error "input PLY not found"
  | some cloud =>
    match apply_similarity_to_ply cloud s R t with
    | .error e => .error e
    | .ok newCloud => .ok fun p => if p = output then some newCloud else store p

/-- The field names of the three position coordinates. -/
def coordName : Fin 3 → String := !["x", "y", "z"]

/-- A default record used with List.getD. -/
def zeroRow : String → ℝ := fun _ => 0

/-- C2: on a cloud containing x, y, z, apply maps every position p to
s * R * p + t, multiplies every scale-like field by s, copies every other
field, and preserves the schema and record count exactly. -/
theorem apply_similarity_spec (cloud : PointCloud) (s : ℝ) (R : Mat3)
    (t : Vec3) (hx : "x" ∈ cloud.names) (hy : "y" ∈ cloud.names)
    (hz : "z" ∈ cloud.names) :
    ∃ out, apply_similarity_to_ply cloud s R t = .ok out ∧
      out.names = cloud.names ∧
      out.rows.length = cloud.rows.length ∧
      (∀ i : ℕ, i < cloud.rows.length →
        (∀ j : Fin 3,
          out.rows.getD i zeroRow (coordName j) =
            s * R.mulVec ![cloud.rows.getD i zeroRow "x",
              cloud.rows.getD i zeroRow "y",
              cloud.rows.getD i zeroRow "z"] j + t j) ∧
        (∀ name : String, name ≠ "x" → name ≠ "y" → name ≠ "z" →
          (isScaleLike name = true →
            out.rows.getD i zeroRow name =
              s * cloud.rows.getD i zeroRow name) ∧
          (isScaleLike name = false →
            out.rows.getD i zeroRow name = cloud.rows.getD i zeroRow name))) := by
  refine ⟨⟨cloud.names, cloud.rows.map (transformRow s R t)⟩, ?_, rfl, ?_, ?_⟩
  · unfold apply_similarity_to_ply
    rw [if_pos ⟨hx, hy, hz⟩]
  · simp
  · intro i hi
    have hi2 : i < (cloud.rows.map (transformRow s R t)).length := by
      simpa using hi
    have hget : (cloud.rows.map (transformRow s R t)).getD i zeroRow =
        transformRow s R t (cloud.rows.getD i zeroRow) := by
      rw [List.getD_eq_getElem _ _ hi, List.getD_eq_getElem _ _ hi2,
        List.getElem_map]
    constructor
    · intro j
      rw [hget]
      fin_cases j <;> simp [transformRow, coordName]
    · intro name h1 h2 h3
      rw [hget]
      constructor
      · intro hsl
        simp [transformRow, h1, h2, h3, hsl]
      · intro hsl
        simp [transformRow, h1, h2, h3, hsl]

/-- A sample record for witnesses. -/
def sampleRow : String → ℝ := fun name =>
  if name = "x" then 1
  else if name = "y" then 2
  else if name = "z" then 3
  else if name = "scale_0" then 4
  else if name = "opacity" then 5
  else 0

/-- A sample cloud for witnesses. -/
def sampleCloud : PointCloud :=
  ⟨["x", "y", "z", "scale_0", "opacity"], [sampleRow]⟩

/-- C2 witness: the sample cloud is transformed successfully. -/
theorem apply_similarity_spec_witness :
    ∃ out, apply_similarity_to_ply sampleCloud 2 1 ![0, 0, 0] = .ok out := by
  obtain ⟨out, h, -⟩ :=
    apply_similarity_spec sampleCloud 2 1 ![0, 0, 0]
      (by simp [sampleCloud]) (by simp [sampleCloud]) (by simp [sampleCloud])
  exact ⟨out, h⟩

/-- C5: running the transform never mutates the stored input cloud: when
the run succeeds, the input path still holds the original cloud, only the
output path changed, and it holds the newly produced cloud. -/
theorem apply_similarity_non_mutating (store : String → Option PointCloud)
    (input output : String) (s : ℝ) (R : Mat3) (t : Vec3)
    (cloud : PointCloud) (st2 : String → Option PointCloud)
    (hin : store input = some cloud) (hne : input ≠ output)
    (hrun : run_apply_similarity store input output s R t = .ok st2) :
    st2 input = some cloud ∧
    (∀ p, p ≠ output → st2 p = store p) ∧
    (∃ newCloud, apply_similarity_to_ply cloud s R t = .ok newCloud ∧
      st2 output = some newCloud) := by
  unfold run_apply_similarity at hrun
  rw [hin] at hrun
  split at hrun
  · next heq =>
    simp at heq
  · next c heq =>
    injection heq with hc
    subst hc
    split at hrun
    · simp at hrun
    · next newCloud heq2 =>
      injection hrun with h
      subst h
      refine ⟨?_, ?_, newCloud, heq2, ?_⟩
      · show (if input = output then some newCloud else store input) =
          some cloud
        rw [if_neg hne, hin]
      · intro p hp
        show (if p = output then some newCloud else store p) = store p
        rw [if_neg hp]
      · show (if output = output then some newCloud else store output) =
          some newCloud
        rw [if_pos rfl]

/-! ## Degenerate-geometry behaviour of the estimator (C3) -/

/-- Three identical local points: centred variance is exactly zero. -/
def degLocal : NArray :=
  ⟨3, 3, Matrix.of ![![1, 1, 1], ![1, 1, 1], ![1, 1, 1]]⟩

/-- An arbitrary target set (all zeros) for the degenerate fixture. -/
def degTarget : NArray := ⟨3, 3, 0⟩

lemma varOf_degLocal : varOf (degLocal.mat 3 3 rfl rfl) = 0 := by
  show varOf (Matrix.of ![![1, 1, 1], ![1, 1, 1], ![1, 1, 1]]) = 0
  unfold varOf centered centroid
  rw [Fin.sum_univ_three]
  norm_num [Fin.sum_univ_three]

/-- C3 amended: the estimator has no degeneracy check; even when the
centred local variance is zero it returns a transform instead of failing
(no DegenerateGeometryError exists in the code). -/
theorem estimator_returns_transform_on_degenerate_input (P Q : NArray)
    (d : SVDData) (h1 : P.rows = Q.rows) (h2 : P.cols = Q.cols)
    (h3 : P.cols = 3) (hdeg : varOf (P.mat P.rows 3 rfl h3) = 0) :
    ∃ out, estimate_similarity_transform P Q d = .ok out := by
  unfold estimate_similarity_transform
  rw [dif_pos ⟨h1, h2, h3⟩]
  exact ⟨_, rfl⟩

/-- C3 witness: the degenerate fixture satisfies the hypotheses. -/
theorem estimator_returns_transform_on_degenerate_input_witness :
    ∃ out, estimate_similarity_transform degLocal degTarget degSVD =
      .ok out :=
  estimator_returns_transform_on_degenerate_input degLocal degTarget degSVD
    rfl rfl rfl varOf_degLocal

/-- C3 counterexample: for the all-identical correspondence set (centred
local variance zero) and valid SVD data for its cross-covariance, the
estimator succeeds with a transform — it does not fail as claimed. -/
theorem estimator_degenerate_counterexample :
    varOf (degLocal.mat 3 3 rfl rfl) = 0 ∧
    IsSVDOf (crossCov (degLocal.mat 3 3 rfl rfl) (degTarget.mat 3 3 rfl rfl))
      degSVD ∧
    ∃ out, estimate_similarity_transform degLocal degTarget degSVD =
      .ok out := by
  refine ⟨varOf_degLocal, ⟨?_, ?_, ?_, ?_⟩, ?_⟩
  · show (1 : Mat3) * (1 : Mat3)ᵀ = 1
    simp
  · show (1 : Mat3) * (1 : Mat3)ᵀ = 1
    simp
  · intro i
    fin_cases i <;> norm_num [degSVD]
  · show crossCov (degLocal.mat 3 3 rfl rfl) (degTarget.mat 3 3 rfl rfl) =
      1 * Matrix.diagonal ![0, 0, 0] * 1
    have hv : (![0, 0, 0] : Vec3) = 0 := by
      funext i
      fin_cases i <;> rfl
    have hd : (Matrix.diagonal (0 : Vec3) : Mat3) = 0 := by
      funext i j
      simp [Matrix.diagonal_apply]
    rw [Matrix.one_mul, Matrix.mul_one, hv, hd]
    have h0 : ∀ i2 j2 : Fin 3, degTarget.mat 3 3 rfl rfl i2 j2 = 0 :=
      fun _ _ => rfl
    have hz : ∀ i j : Fin 3,
        centered (degTarget.mat 3 3 rfl rfl) i j = 0 := by
      intro i j
      show degTarget.mat 3 3 rfl rfl i j -
        centroid (degTarget.mat 3 3 rfl rfl) j = 0
      simp [centroid, h0]
    funext a b
    show ((centered (degLocal.mat 3 3 rfl rfl))ᵀ *
      centered (degTarget.mat 3 3 rfl rfl)) a b = (0 : Mat3) a b
    rw [Matrix.mul_apply, Fin.sum_univ_three, Matrix.transpose_apply,
      Matrix.transpose_apply, Matrix.transpose_apply, hz, hz, hz]
    simp
  · unfold estimate_similarity_transform
    rw [dif_pos ⟨rfl, rfl, rfl⟩]
    exact ⟨_, rfl⟩

/-- C6 witness: identity SVD factors and the equator reference point. -/
theorem core_rotations_proper_witness :
    ((svdRotation degSVD)ᵀ * svdRotation degSVD = 1 ∧
      (svdRotation degSVD).det = 1) ∧
    ((enu_to_ecef_rotation 0 0)ᵀ * enu_to_ecef_rotation 0 0 = 1 ∧
      (enu_to_ecef_rotation 0 0).det = 1) :=
  core_rotations_proper degSVD 0 0 (by simp [degSVD]) (by simp [degSVD])
    (by norm_num) (by norm_num)

/-- C8 witness: rescaling a built matrix to its own scale is a no-op, and
rescaling away and back restores it. -/
theorem update_tileset_scale_spec_witness :
    update_tileset_scale (create_transform_matrix 0 0 0 2) 2 =
      create_transform_matrix 0 0 0 2 ∧
    update_tileset_scale
        (update_tileset_scale (create_transform_matrix 0 0 0 2) 5) 2 =
      create_transform_matrix 0 0 0 2 :=
  ⟨update_tileset_scale_spec.2.1 0 0 0 2 (by norm_num),
    update_tileset_scale_spec.2.2 (create_transform_matrix 0 0 0 2) 2 5
      (firstColNorm_create 0 0 0 2 (by norm_num)) (by norm_num)
      (by norm_num)⟩

/-! ## Exact recovery of a similarity transform (C1) -/

/-- The 3x3 scatter matrix of the centred local set; the local set is
non-degenerate exactly when it is positive definite. -/
def localCov {n : ℕ} (P : Matrix (Fin n) (Fin 3) ℝ) : Mat3 :=
  (centered P)ᵀ * centered P

lemma posDef_smul {C : Mat3} (hC : C.PosDef) {s : ℝ} (hs : 0 < s) :
    (s • C).PosDef := by
  constructor
  · show (s • C)ᴴ = s • C
    rw [Matrix.conjTranspose_smul, star_trivial, hC.1.eq]
  · intro x hx
    have h := hC.2 x hx
    have heq : dotProduct (star x) ((s • C) *ᵥ x) =
        s * dotProduct (star x) (C *ᵥ x) := by
      rw [Matrix.smul_mulVec_assoc, dotProduct_smul, smul_eq_mul]
    rw [heq]
    exact mul_pos hs h

lemma posDef_diag_pos {C : Mat3} (hC : C.PosDef) (j : Fin 3) : 0 < C j j := by
  have hsingle : (Pi.single j (1 : ℝ) : Vec3) ≠ 0 := by
    intro hcontra
    have h := congrFun hcontra j
    rw [Pi.single_eq_same] at h
    exact one_ne_zero h
  have h := hC.2 (Pi.single j (1 : ℝ) : Vec3) hsingle
  have heq : dotProduct (star (Pi.single j (1 : ℝ) : Vec3))
      (C *ᵥ (Pi.single j (1 : ℝ) : Vec3)) = C j j := by
    rw [Matrix.mulVec_single]
    have hstar : star (Pi.single j (1 : ℝ) : Vec3) =
        (Pi.single j (1 : ℝ) : Vec3) := by
      funext k
      simp [Pi.star_apply]
    rw [hstar, Matrix.single_dotProduct]
    simp
  rwa [heq] at h

/-- Pointwise reading of mulVec. -/
lemma mulVec_entry (M : Mat3) (v : Vec3) (j : Fin 3) :
    M.mulVec v j = ∑ k, M j k * v k := rfl

/-- C1: when the target set is produced from the local set by a genuine
similarity transform (s > 0, proper rotation R, translation t), the local
set is non-degenerate, and the SVD data satisfies numpy's contract for the
cross-covariance, the estimator recovers exactly (s, R, t). -/
theorem estimator_exact_recovery {n : ℕ} (P Q : Matrix (Fin n) (Fin 3) ℝ)
    (s : ℝ) (R : Mat3) (t : Vec3) (d : SVDData) (hn : 3 ≤ n) (hs : 0 < s)
    (hR : Rᵀ * R = 1) (hRdet : R.det = 1)
    (hQ : ∀ i j, Q i j = s * R.mulVec (fun k => P i k) j + t j)
    (hC : (localCov P).PosDef)
    (hd : IsSVDOf (crossCov P Q) d) :
    estimateCore P Q d = (s, R, t) := by
  obtain ⟨hU, hVt, hS, hH⟩ := hd
  have hUtU : d.Uᵀ * d.U = 1 := Matrix.mul_eq_one_comm.mp hU
  have hnR : (n : ℝ) ≠ 0 := by
    have h0 : (0 : ℝ) < n := by
      exact_mod_cast lt_of_lt_of_le (by norm_num) hn
    exact h0.ne'
  -- centroid of the target set
  have hcentQ : ∀ j, centroid Q j = s * R.mulVec (centroid P) j + t j := by
    intro j
    have h1 : ∑ i, Q i j = s * (∑ k, R j k * ∑ i, P i k) + n * t j := by
      calc ∑ i, Q i j
          = ∑ i, (s * (∑ k, R j k * P i k) + t j) := by
            refine Finset.sum_congr rfl fun i _ => ?_
            rw [hQ i j]
            rfl
        _ = (∑ i, s * ∑ k, R j k * P i k) + ∑ _i : Fin n, t j :=
            Finset.sum_add_distrib
        _ = s * (∑ i, ∑ k, R j k * P i k) + n * t j := by
            rw [← Finset.mul_sum, Finset.sum_const, Finset.card_univ,
              Fintype.card_fin, nsmul_eq_mul]
        _ = s * (∑ k, R j k * ∑ i, P i k) + n * t j := by
            rw [Finset.sum_comm]
            congr 1
            congr 1
            refine Finset.sum_congr rfl fun k _ => ?_
            rw [Finset.mul_sum]
    show (∑ i, Q i j) / n = s * R.mulVec (centroid P) j + t j
    rw [h1, mulVec_entry]
    have h2 : ∀ k, R j k * centroid P k = (R j k * ∑ i, P i k) / n :=
      fun k => by
        show R j k * ((∑ i, P i k) / n) = _
        ring
    simp only [h2]
    rw [← Finset.sum_div]
    field_simp
    ring
  -- centred target set
  have hQc : centered Q = s • (centered P * Rᵀ) := by
    funext i j
    show Q i j - centroid Q j = s * ((centered P * Rᵀ) i j)
    rw [hQ i j, hcentQ j, mulVec_entry, mulVec_entry]
    have h3 : (centered P * Rᵀ) i j =
        (∑ k, R j k * P i k) - ∑ k, R j k * centroid P k := by
      rw [Matrix.mul_apply, ← Finset.sum_sub_distrib]
      refine Finset.sum_congr rfl fun k _ => ?_
      rw [Matrix.transpose_apply]
      show centered P i k * R j k = _
      show (P i k - centroid P k) * R j k = _
      ring
    rw [h3]
    ring
  -- the cross-covariance in terms of the scatter matrix
  have hHval : crossCov P Q = s • (localCov P * Rᵀ) := by
    unfold crossCov localCov
    rw [hQc, Matrix.mul_smul, Matrix.mul_assoc]
  have hCsym : (localCov P)ᵀ = localCov P := by
    unfold localCov
    rw [Matrix.transpose_mul, Matrix.transpose_transpose]
  -- the transposed cross-covariance is a polar product in two ways
  have hHT : (crossCov P Q)ᵀ = R * (s • localCov P) := by
    rw [hHval, Matrix.transpose_smul, Matrix.transpose_mul,
      Matrix.transpose_transpose, hCsym, Matrix.mul_smul]
  have hHT2 : (crossCov P Q)ᵀ =
      svdRotationRaw d * (d.U * Matrix.diagonal d.S * d.Uᵀ) := by
    rw [hH, Matrix.transpose_mul, Matrix.transpose_mul,
      Matrix.diagonal_transpose]
    unfold svdRotationRaw
    simp only [Matrix.mul_assoc]
    rw [← Matrix.mul_assoc d.Uᵀ d.U, hUtU, Matrix.one_mul]
  have hstar : R * (s • localCov P) =
      svdRotationRaw d * (d.U * Matrix.diagonal d.S * d.Uᵀ) := by
    rw [← hHT, hHT2]
  -- positivity facts
  have hsC : (s • localCov P).PosDef := posDef_smul hC hs
  have hS2 : (d.U * Matrix.diagonal d.S * d.Uᵀ).PosSemidef := by
    have hdiag : (Matrix.diagonal d.S).PosSemidef :=
      Matrix.posSemidef_diagonal_iff.mpr hS
    have h := hdiag.mul_mul_conjTranspose_same d.U
    rwa [Matrix.conjTranspose_eq_transpose_of_trivial] at h
  have hS2sym : (d.U * Matrix.diagonal d.S * d.Uᵀ)ᵀ =
      d.U * Matrix.diagonal d.S * d.Uᵀ := by
    have h := hS2.1.eq
    rwa [Matrix.conjTranspose_eq_transpose_of_trivial] at h
  have hsCsym : (s • localCov P)ᵀ = s • localCov P := by
    rw [Matrix.transpose_smul, hCsym]
  -- equal squares, hence equal positive parts
  have hWorth : (svdRotationRaw d)ᵀ * svdRotationRaw d = 1 :=
    orth_mul_transpose hVt hU
  have hsq : (s • localCov P) ^ 2 =
      (d.U * Matrix.diagonal d.S * d.Uᵀ) ^ 2 := by
    have e1 : (R * (s • localCov P))ᵀ * (R * (s • localCov P)) =
        (s • localCov P) ^ 2 := by
      rw [Matrix.transpose_mul, Matrix.mul_assoc,
        ← Matrix.mul_assoc Rᵀ R, hR, Matrix.one_mul, hsCsym, pow_two]
    have e2 : (svdRotationRaw d * (d.U * Matrix.diagonal d.S * d.Uᵀ))ᵀ *
        (svdRotationRaw d * (d.U * Matrix.diagonal d.S * d.Uᵀ)) =
        (d.U * Matrix.diagonal d.S * d.Uᵀ) ^ 2 := by
      rw [Matrix.transpose_mul, Matrix.mul_assoc,
        ← Matrix.mul_assoc (svdRotationRaw d)ᵀ (svdRotationRaw d), hWorth,
        Matrix.one_mul, hS2sym, pow_two]
    rw [← e1, ← e2, hstar]
  have hCS2 : s • localCov P = d.U * Matrix.diagonal d.S * d.Uᵀ :=
    hsC.posSemidef.eq_of_sq_eq_sq hS2 hsq
  -- cancel the invertible scatter part to identify the rotation
  have hdet : IsUnit (s • localCov P).det := hsC.det_pos.ne'.isUnit
  have hW : svdRotationRaw d = R := by
    have h5 : svdRotationRaw d * (s • localCov P) = R * (s • localCov P) := by
      nth_rewrite 1 [hCS2]
      exact hstar.symm
    have h6 := congrArg (fun M => M * (s • localCov P)⁻¹) h5
    simp only at h6
    rwa [Matrix.mul_assoc, Matrix.mul_assoc,
      Matrix.mul_nonsing_inv _ hdet, Matrix.mul_one, Matrix.mul_one] at h6
  have hrot : svdRotation d = R := by
    unfold svdRotation
    rw [if_neg (by rw [hW, hRdet]; norm_num), hW]
  -- the variance is the trace of the scatter matrix
  have hvar : varOf P = Matrix.trace (localCov P) := by
    unfold varOf Matrix.trace
    rw [Finset.sum_comm]
    refine Finset.sum_congr rfl fun j _ => ?_
    show ∑ i, centered P i j ^ 2 = (localCov P).diag j
    show ∑ i, centered P i j ^ 2 = ((centered P)ᵀ * centered P) j j
    rw [Matrix.mul_apply]
    refine Finset.sum_congr rfl fun i _ => ?_
    rw [Matrix.transpose_apply, pow_two]
  have hvar_pos : 0 < varOf P := by
    rw [hvar]
    exact Finset.sum_pos (fun j _ => posDef_diag_pos hC j)
      ⟨0, Finset.mem_univ 0⟩
  -- sum of singular values
  have htrS : ∑ i, d.S i = s * varOf P := by
    have h7 : Matrix.trace (d.U * Matrix.diagonal d.S * d.Uᵀ) =
        Matrix.trace (Matrix.diagonal d.S) := by
      rw [Matrix.trace_mul_cycle, hUtU, Matrix.one_mul]
    have h9 := congrArg Matrix.trace hCS2
    rw [Matrix.trace_smul, h7, Matrix.trace_diagonal, smul_eq_mul,
      ← hvar] at h9
    exact h9.symm
  have hscale : (∑ i, d.S i) / varOf P = s := by
    rw [htrS]
    field_simp
  -- assemble
  show ((∑ i, d.S i) / varOf P, svdRotation d,
    fun j => centroid Q j -
      (∑ i, d.S i) / varOf P * (svdRotation d).mulVec (centroid P) j) =
    (s, R, t)
  rw [hscale, hrot]
  refine Prod.ext rfl (Prod.ext rfl ?_)
  show (fun j => centroid Q j - s * R.mulVec (centroid P) j) = t
  funext j
  rw [hcentQ j]
  ring

/-- A non-degenerate 6-point local fixture for the C1 witness. -/
def exLocal : Matrix (Fin 6) (Fin 3) ℝ :=
  Matrix.of ![![1, 0, 0], ![-1, 0, 0], ![0, 2, 0],
    ![0, -2, 0], ![0, 0, 3], ![0, 0, -3]]

/-- The target fixture: exLocal translated by (0, 0, 42). -/
def exTarget : Matrix (Fin 6) (Fin 3) ℝ :=
  Matrix.of ![![1, 0, 42], ![-1, 0, 42], ![0, 2, 42],
    ![0, -2, 42], ![0, 0, 45], ![0, 0, 39]]

/-- SVD data for the fixture cross-covariance diag(2, 8, 18). -/
def exSVD : SVDData := ⟨1, ![2, 8, 18], 1⟩

lemma exL_r0 : exLocal 0 = ![1, 0, 0] := rfl

lemma exL_r1 : exLocal 1 = ![-1, 0, 0] := rfl

lemma exL_r2 : exLocal 2 = ![0, 2, 0] := rfl

lemma exL_r3 : exLocal 3 = ![0, -2, 0] := rfl

lemma exL_r4 : exLocal 4 = ![0, 0, 3] := rfl

lemma exL_r5 : exLocal 5 = ![0, 0, -3] := rfl

lemma exT_r0 : exTarget 0 = ![1, 0, 42] := rfl

lemma exT_r1 : exTarget 1 = ![-1, 0, 42] := rfl

lemma exT_r2 : exTarget 2 = ![0, 2, 42] := rfl

lemma exT_r3 : exTarget 3 = ![0, -2, 42] := rfl

lemma exT_r4 : exTarget 4 = ![0, 0, 45] := rfl

lemma exT_r5 : exTarget 5 = ![0, 0, 39] := rfl

lemma exLocal_centroid : ∀ j, centroid exLocal j = 0 := by
  intro j
  unfold centroid
  rw [Fin.sum_univ_six]
  simp only [exL_r0, exL_r1, exL_r2, exL_r3, exL_r4, exL_r5]
  fin_cases j <;> norm_num

lemma exLocal_centered : ∀ i j, centered exLocal i j = exLocal i j := by
  intro i j
  show exLocal i j - centroid exLocal j = exLocal i j
  rw [exLocal_centroid, sub_zero]

lemma exLocal_cov : localCov exLocal = Matrix.diagonal ![2, 8, 18] := by
  funext a b
  unfold localCov
  rw [Matrix.mul_apply, Fin.sum_univ_six]
  simp only [Matrix.transpose_apply, exLocal_centered, exL_r0, exL_r1,
    exL_r2, exL_r3, exL_r4, exL_r5]
  fin_cases a <;> fin_cases b <;>
    norm_num [Matrix.diagonal_apply, Fin.ext_iff]

lemma exTarget_centroid : ∀ j, centroid exTarget j = ![0, 0, 42] j := by
  intro j
  unfold centroid
  rw [Fin.sum_univ_six]
  simp only [exT_r0, exT_r1, exT_r2, exT_r3, exT_r4, exT_r5]
  fin_cases j <;> norm_num

lemma exTarget_centered : ∀ i j, centered exTarget i j = exLocal i j := by
  intro i j
  show exTarget i j - centroid exTarget j = exLocal i j
  rw [exTarget_centroid]
  fin_cases i <;> fin_cases j <;> norm_num [exLocal, exTarget]

lemma exCrossCov : crossCov exLocal exTarget = Matrix.diagonal ![2, 8, 18] := by
  funext a b
  unfold crossCov
  rw [Matrix.mul_apply, Fin.sum_univ_six]
  simp only [Matrix.transpose_apply, exLocal_centered, exTarget_centered,
    exL_r0, exL_r1, exL_r2, exL_r3, exL_r4, exL_r5]
  fin_cases a <;> fin_cases b <;>
    norm_num [Matrix.diagonal_apply, Fin.ext_iff]

/-- C1 witness: on the concrete fixture (a pure vertical offset of 42) the
estimator returns scale 1, the identity rotation, and translation
(0, 0, 42) exactly. -/
theorem estimator_exact_recovery_witness :
    estimateCore exLocal exTarget exSVD = (1, (1 : Mat3), ![0, 0, 42]) := by
  refine estimator_exact_recovery exLocal exTarget 1 1 ![0, 0, 42] exSVD
    (by norm_num) one_pos (by simp) (by simp) ?_ ?_ ?_
  · intro i j
    rw [Matrix.one_mulVec, one_mul]
    show exTarget i j = exLocal i j + ![0, 0, 42] j
    fin_cases i <;> fin_cases j <;> norm_num [exLocal, exTarget]
  · rw [exLocal_cov]
    refine Matrix.posDef_diagonal_iff.mpr fun i => ?_
    fin_cases i <;> norm_num
  · refine ⟨by simp [exSVD], by simp [exSVD], ?_, ?_⟩
    · intro i
      fin_cases i <;> norm_num [exSVD]
    · show crossCov exLocal exTarget = 1 * Matrix.diagonal ![2, 8, 18] * 1
      rw [Matrix.one_mul, Matrix.mul_one, exCrossCov]

/-- A sample single-file store for the C5 witness. -/
def sampleStore : String → Option PointCloud :=
  fun p => if p = "in.ply" then some sampleCloud else none

/-- C5 witness: a concrete run leaves the input file untouched. -/
theorem apply_similarity_non_mutating_witness :
    ∃ st2, run_apply_similarity sampleStore "in.ply" "out.ply" 2 1
        ![0, 0, 0] = .ok st2 ∧ st2 "in.ply" = some sampleCloud := by
  refine ⟨_, rfl, ?_⟩
  exact (apply_similarity_non_mutating sampleStore "in.ply" "out.ply" 2 1
    ![0, 0, 0] sampleCloud _ rfl (by simp) rfl).1

end
